import Mathlib

/-!
# Verification of the mercury diff parser and binary-delta decoder

Shallow embedding of `src/mercury/diffparser.py`, `src/mercury/utils.py`,
`src/mercury/change.py` and `src/mercury/exceptions.py` (Python 2 source).

Modelling conventions:
* Byte strings handled as raw bytes (the delta bytecode, base85 payloads) are
  modelled as `List Nat`, each element being the byte value obtained by
  indexing, so `delta[ptr]` is the list element and bit operations act on it.
* Text lines are modelled as Lean `String`s; the line iterator that
  `Linebuffer` wraps is modelled as the list of remaining lines.
* A Python runtime exception is modelled by the `PyErr` error component of an
  `Except`-style result.  A reference to a name with no binding in scope
  (Python `NameError`) is modelled as `PyErr.nameError` carrying the missing
  name; an out-of-range sequence index as `PyErr.indexError`.
* Loops whose termination is not structurally evident in the source are given
  explicit fuel; exhausting the fuel produces `PErr.fuelOut`, so a run that
  returns `PErr.fuelOut` for **every** fuel value diverges.
-/

/-- A Python runtime exception, as far as this development needs to
distinguish them. -/
inductive PyErr where
  /-- `NameError`: the code referenced a name with no binding in scope;
  the field records the missing name. -/
  | nameError (missing : String)
  /-- `IndexError`: sequence index out of range. -/
  | indexError
  /-- `ValueError`: e.g. `int()` applied to a non-numeric string or
  `unichr` applied to an out-of-range code point. -/
  | valueError
  /-- The `BadBinaryHunk` exception class of `mercury/exceptions.py`,
  with its message. -/
  | badBinaryHunk (msg : String)
  /-- An exception propagated out of the external base85 decoder
  (invalid alphabet character). -/
  | base85Error
deriving DecidableEq

/-- Outcome tag for an embedded fragment of Python: either a Python
exception or fuel exhaustion (the modelled loop did not terminate within
the given fuel). -/
inductive PErr where
  | exn : PyErr → PErr
  | fuelOut : PErr
deriving DecidableEq

/-- Result of running an embedded fragment of Python code. -/
abbrev PRes (α : Type) := Except PErr α

/-- The exception class names defined by `src/mercury/exceptions.py`
(each one a direct subclass of `MercuryException`); these are the names
`from mercury.exceptions import *` puts in scope in `utils.py`. -/
def mercuryExceptionNames : List String :=
  ["MercuryException", "MercurialNotFound", "AlreadyConnected",
   "ProtocolError", "CapabilityError", "ChannelError", "PipeError",
   "CommandError", "RemoteRepositoryError", "BadBinaryHunk",
   "BadFieldError", "NotARepositoryError", "BadBinaryDeltaError"]

/-! ## Data model (`mercury/change.py`) -/

/-- The concrete class of a change object: `Change` itself (`kind =
'change'`, a plain modification) or one of its subclasses. -/
inductive ChangeKind where
  | modify | rename | copy | add | delete
deriving DecidableEq

/-- `TextHunk`: header fields stored at construction plus the ordered
`(marker, text)` line pairs accumulated by the hunk parsers. -/
structure TextHunk where
  start_a : Nat
  len_a : Nat
  start_b : Nat
  len_b : Nat
  lines : List (Char × String)
deriving DecidableEq

/-- `BinaryHunk`: decompressed length declared by the `<method> <length>`
line, the method string, the decompressed payload bytes and the
forward/reverse flag. -/
structure BinaryHunk where
  length : Nat
  method : String
  data : List Nat
  reverse : Bool
deriving DecidableEq

/-- A hunk attached to a change. -/
inductive Hunk where
  | text : TextHunk → Hunk
  | binary : BinaryHunk → Hunk
deriving DecidableEq

/-- A change object.  Python represents the variants as subclasses; here the
class is the `kind` tag and all attributes any variant ever sets are optional
fields (`Change.__init__` sets `binary`, `hunks`, `source`, `dest`; the
subclass constructors and the git-header handlers set the rest). -/
structure Change where
  kind : ChangeKind
  source : Option String := none
  dest : Option String := none
  hunks : List Hunk := []
  binary : Bool := false
  old_mode : Option Nat := none
  new_mode : Option Nat := none
  similarity : Option Nat := none
  dissimilarity : Option Nat := none
deriving DecidableEq

/-! ## Line source (`Linebuffer`, diffparser.py lines 273-296)

`self.f` (the wrapped file / `StringIO`) is modelled by the list of lines it
has yet to produce; `self.buffered` is the pushback list.  `next` pops
`buffered[0]` when the buffer is nonempty (`self.buffered.pop(0)`), else takes
the next line of the stream, and signals `StopIteration` (here: `none`) at
end of input.  `push` is `self.buffered.append(line)`, appending at the END
of the buffer. -/

structure Linebuffer where
  buffered : List String
  stream : List String
deriving DecidableEq

/-- `Linebuffer.next`: `self.buffered.pop(0)` if buffered lines exist,
otherwise `self.f.next()`; `none` models `StopIteration`. -/
def Linebuffer.next : Linebuffer → Option (String × Linebuffer)
  | ⟨b :: bs, s⟩ => some (b, ⟨bs, s⟩)
  | ⟨[], l :: ls⟩ => some (l, ⟨[], ls⟩)
  | ⟨[], []⟩ => none

/-- `Linebuffer.push`: `self.buffered.append(line)`. -/
def Linebuffer.push (lb : Linebuffer) (line : String) : Linebuffer :=
  { lb with buffered := lb.buffered ++ [line] }

/-- `Linebuffer.readline`: `next`, with `StopIteration` converted to the
empty string. -/
def Linebuffer.readline (lb : Linebuffer) : String × Linebuffer :=
  match lb.next with
  | some (l, lb') => (l, lb')
  | none => ("", lb)

/-! ## Delta bytecode interpreter (`decode_delta`, utils.py lines 9-51)

The generator is modelled as the list of tuples it yields paired with how it
stops: `none` = normal `StopIteration` (`ptr` reached `dlen`), `some e` = the
exception `e` escaped.

Two references in the source have no binding in scope:
* after yielding a copy instruction the code runs `todo -= size`, but no
  variable `todo` is ever assigned in `decode_delta` → `NameError` on `todo`;
* both `raise BadBinaryDelta(...)` statements reference `BadBinaryDelta`,
  while `mercury/exceptions.py` defines `BadBinaryDeltaError` (see
  `mercuryExceptionNames`) → evaluating the `raise` expression raises
  `NameError` on `BadBinaryDelta` instead of constructing the exception.

Note also that the literal branch advances `ptr` only past the opcode byte
(never past the payload it just yielded) and leaves `offset` unchanged. -/

/-- One instruction yielded by `decode_delta`: a copy-from-source
4-tuple `(offset, 'source', src_offset, size)` (flattened here to the
payload past the offset) or a literal-insert `(offset, 'delta', bytes)`. -/
inductive DeltaInstr where
  | source (srcOffset size : Nat)
  | delta (bytes : List Nat)
deriving DecidableEq

/-- The body of `decode_delta`'s `while ptr < dlen` loop, operating on the
suffix `delta[ptr:]`; `offset` is the running output offset. -/
def decodeDeltaAux : List Nat → Nat → List (Nat × DeltaInstr) × Option PyErr
  | [], _ => ([], none)
  | cmd :: rest, offset =>
    if cmd &&& 0x80 ≠ 0 then
      -- copy from source: gather the offset/size bytes selected by the low bits
      match
        (do
          let step : Nat × List Nat → Nat → Nat → Option (Nat × List Nat) :=
            fun (acc, bs) bit shift =>
              if cmd &&& bit ≠ 0 then
                match bs with
                | [] => none            -- delta[ptr] with ptr ≥ dlen: IndexError
                | b :: bs' => some (acc ||| (b <<< shift), bs')
              else some (acc, bs)
          let (so, bs) ← step (0, rest) 0x01 0
          let (so, bs) ← step (so, bs) 0x02 8
          let (so, bs) ← step (so, bs) 0x04 16
          let (so, bs) ← step (so, bs) 0x08 24
          let (sz, bs) ← step (0, bs) 0x10 0
          let (sz, bs) ← step (sz, bs) 0x20 8
          let (sz, _bs) ← step (sz, bs) 0x40 16
          some (so, sz)) with
      | none => ([], some .indexError)
      | some (so, sz) =>
        let sz := if sz = 0 then 0x10000 else sz
        -- the tuple is yielded, then `offset += size; todo -= size` raises
        -- NameError('todo'), killing the generator
        ([(offset, .source so sz)], some (.nameError "todo"))
    else if cmd ≠ 0 then
      -- literal insert
      if rest.length < cmd then
        -- `raise BadBinaryDelta('delta was truncated')`: NameError
        ([], some (.nameError "BadBinaryDelta"))
      else
        -- yields, then loops with ptr advanced only past the opcode byte
        let (tl, e) := decodeDeltaAux rest offset
        ((offset, .delta (rest.take cmd)) :: tl, e)
    else
      -- `raise BadBinaryDelta('unknown opcode 0x00')`: NameError
      ([], some (.nameError "BadBinaryDelta"))

/-- `decode_delta(delta)`: run the loop from `ptr = 0`, `offset = 0`. -/
def decode_delta (delta : List Nat) : List (Nat × DeltaInstr) × Option PyErr :=
  decodeDeltaAux delta 0

/-! ## Theorems for claims C2, C3, C4 -/

/-- Claim C2: the claim says that after a copy-from-source opcode is decoded
(source_offset from the little-endian bytes selected by bits 0-3, size from
the bytes selected by bits 4-6, 0x10000 when absent), decoding continues at
the next opcode with the output offset advanced by the size.  The code does
assemble and yield the copy tuple as described, but then executes
`todo -= size` where `todo` is an unassigned local, so the generator dies
with a `NameError` and decoding never reaches the next opcode: on the
two-opcode delta `\x80\x80` only one instruction is produced, and likewise
after `\x91\x05\x02` (offset byte 5, size byte 2). -/
theorem decode_delta_copy_todo_crash :
    decode_delta [0x80, 0x80] =
      ([(0, DeltaInstr.source 0 0x10000)], some (PyErr.nameError "todo")) ∧
    decode_delta [0x91, 5, 2] =
      ([(0, DeltaInstr.source 5 2)], some (PyErr.nameError "todo")) := by
  constructor <;> rfl

/-- Claim C3: the claim says a zero opcode and a truncated literal payload
are reported through a delta-specific error type (`BadBinaryDeltaError`)
distinct from the binary-patch container error (`BadBinaryHunk`).  The code
instead writes `raise BadBinaryDelta(...)` at both sites; no `BadBinaryDelta`
exists in `mercury/exceptions.py` (the class is `BadBinaryDeltaError`), so
both paths die with `NameError("BadBinaryDelta")` rather than the documented
exception: shown on the zero opcode `\x00` and on the truncated literal
`\x03\x01` (opcode 3 with a single payload byte left). -/
theorem decode_delta_error_name_missing :
    decode_delta [0] = ([], some (PyErr.nameError "BadBinaryDelta")) ∧
    decode_delta [3, 1] = ([], some (PyErr.nameError "BadBinaryDelta")) ∧
    "BadBinaryDelta" ∉ mercuryExceptionNames ∧
    "BadBinaryDeltaError" ∈ mercuryExceptionNames := by
  refine ⟨rfl, rfl, by decide, by decide⟩

/-- Claim C4 counterexample: the claim says pushed-back lines come back
most-recently-pushed first (`push_back(L1); push_back(L2)` then `next_line`
gives `L2`).  `Linebuffer.push` appends at the end of the buffer and
`Linebuffer.next` pops index 0, so after pushing `"a"` then `"b"` the next
line is `"a"`, not `"b"`. -/
theorem push_order_cex :
    (((Linebuffer.mk [] []).push "a").push "b").next =
      some ("a", Linebuffer.mk ["b"] []) ∧ "a" ≠ "b" := by
  constructor
  · rfl
  · decide

/-- Claim C4 (amended): pushed-back lines are returned in push order —
first pushed, first returned — and all buffered lines are returned before
any further line of the underlying stream: after `push L1` then `push L2`
on a buffer-empty source, `next` yields `L1` and then `L2`, with the
stream untouched. -/
theorem push_fifo_order (s : List String) (l1 l2 : String) :
    (((Linebuffer.mk [] s).push l1).push l2).next =
      some (l1, Linebuffer.mk [l2] s) ∧
    (Linebuffer.mk [l2] s).next = some (l2, Linebuffer.mk [] s) :=
  ⟨rfl, rfl⟩

/-! ## Character and string helpers -/

/-- Python 2 `re` `\s` over ASCII text: `[ \t\n\r\f\v]`. -/
def pyIsSpace (c : Char) : Bool :=
  c = ' ' ∨ c = '\t' ∨ c = '\n' ∨ c = '\r' ∨ c = '\x0b' ∨ c = '\x0c'

/-- Python `str.strip()` with no argument: remove leading and trailing
whitespace. -/
def pyStrip (s : String) : String :=
  ⟨(s.data.dropWhile pyIsSpace).reverse.dropWhile pyIsSpace |>.reverse⟩

/-- Value of a nonempty run of decimal digits (`int(...)`). -/
def digitsVal (ds : List Char) : Nat :=
  ds.foldl (fun a c => a * 10 + (c.toNat - '0'.toNat)) 0

/-- Value of a run of octal digits (`int(..., 8)`). -/
def octalVal (ds : List Char) : Nat :=
  ds.foldl (fun a c => a * 8 + (c.toNat - '0'.toNat)) 0

/-! ## Hunk header recognizers (diffparser.py lines 270-326) -/

/-- `re.match` of `_UNIFIED_HUNK_RE`
`@@\s+-(\d+)(?:,(\d+))?\s+\+(\d+)(?:,(\d+))?\s+@@` against the start of the
line, returning the four groups with the omitted lengths still absent. -/
def matchUnifiedHunk (line : String) : Option (Nat × Option Nat × Nat × Option Nat) :=
  match line.data with
  | '@' :: '@' :: r0 =>
    let ws1 := r0.span pyIsSpace
    if ws1.1.isEmpty then none else
    match ws1.2 with
    | '-' :: r2 =>
      let dA := r2.span Char.isDigit
      if dA.1.isEmpty then none else
      let oA : Option Nat × List Char :=
        match dA.2 with
        | ',' :: r' =>
          let d := r'.span Char.isDigit
          if d.1.isEmpty then (none, dA.2) else (some (digitsVal d.1), d.2)
        | _ => (none, dA.2)
      let ws2 := oA.2.span pyIsSpace
      if ws2.1.isEmpty then none else
      match ws2.2 with
      | '+' :: r6 =>
        let dB := r6.span Char.isDigit
        if dB.1.isEmpty then none else
        let oB : Option Nat × List Char :=
          match dB.2 with
          | ',' :: r' =>
            let d := r'.span Char.isDigit
            if d.1.isEmpty then (none, dB.2) else (some (digitsVal d.1), d.2)
          | _ => (none, dB.2)
        let ws3 := oB.2.span pyIsSpace
        if ws3.1.isEmpty then none else
        match ws3.2 with
        | '@' :: '@' :: _ => some (digitsVal dA.1, oA.1, digitsVal dB.1, oB.1)
        | _ => none
      | _ => none
    | _ => none
  | _ => none

/-- `_parse_unified_header`: `(0,0,0,0)` when the regex does not match,
otherwise the four numbers with omitted lengths defaulting to 1. -/
def parse_unified_header (line : String) : Nat × Nat × Nat × Nat :=
  match matchUnifiedHunk line with
  | none => (0, 0, 0, 0)
  | some (sa, la, sb, lb) => (sa, la.getD 1, sb, lb.getD 1)

/-- `re.match` of `_CONTEXT_HUNK_RE`
`(?:---|\*\*\*)\s+(\d+)(?:,(\d+))?\s+(?:---|\*\*\*)`. -/
def matchContextHunk (line : String) : Option (Nat × Option Nat) :=
  let go : List Char → Option (Nat × Option Nat) := fun r0 =>
    let ws1 := r0.span pyIsSpace
    if ws1.1.isEmpty then none else
    let ds := ws1.2.span Char.isDigit
    if ds.1.isEmpty then none else
    let oL : Option Nat × List Char :=
      match ds.2 with
      | ',' :: r' =>
        let d := r'.span Char.isDigit
        if d.1.isEmpty then (none, ds.2) else (some (digitsVal d.1), d.2)
      | _ => (none, ds.2)
    let ws2 := oL.2.span pyIsSpace
    if ws2.1.isEmpty then none else
    match ws2.2 with
    | '-' :: '-' :: '-' :: _ => some (digitsVal ds.1, oL.1)
    | '*' :: '*' :: '*' :: _ => some (digitsVal ds.1, oL.1)
    | _ => none
  match line.data with
  | '-' :: '-' :: '-' :: r0 => go r0
  | '*' :: '*' :: '*' :: r0 => go r0
  | _ => none

/-- `_parse_context_header`: `(0,0)` when the regex does not match,
otherwise start and length with an omitted length defaulting to 1. -/
def parse_context_header (line : String) : Nat × Nat :=
  match matchContextHunk line with
  | none => (0, 0)
  | some (s, l) => (s, l.getD 1)

/-- Python `str.startswith`, computed on the character lists (kept
structurally recursive so concrete runs reduce definitionally). -/
def pyStartsWith (s pre : String) : Bool := pre.data.isPrefixOf s.data

/-- Python `str.endswith`. -/
def pyEndsWith (s suf : String) : Bool :=
  suf.data.reverse.isPrefixOf s.data.reverse

/-- Python slicing `s[:-n]` for `n ≥ 0` (`s[:-1]`, `s[:-2]`). -/
def pyDropRight (s : String) (n : Nat) : String :=
  ⟨s.data.take (s.data.length - n)⟩

/-! ## Unified hunk body (`_parse_unified`, diffparser.py lines 328-367) -/

/-- `TextHunk.fix_final_newline` (change.py lines 79-85): strip the trailing
newline characters of the last stored line; `self.lines[-1]` on an empty
list raises `IndexError`. -/
def fixFinalNewline (ls : List (Char × String)) : PRes (List (Char × String)) :=
  match ls.getLast? with
  | none => .error (.exn .indexError)
  | some l =>
    let nt := if pyEndsWith l.2 "\r\n" then pyDropRight l.2 2 else pyDropRight l.2 1
    .ok (ls.dropLast ++ [(l.1, nt)])

/-- The `while la or lb` body-line loop of `_parse_unified`.  `la` and `lb`
are Python ints (they may pass below zero, and the loop runs while either is
nonzero); an empty or blank line — including the `''` that `readline`
returns forever at end of input — is stored as a context line and
decrements both counters; otherwise the line is stored as
`(line[0], line[1:])` and decrements `la` for markers in `' -'` and `lb`
for markers in `' +'`. -/
def parseUnifiedLoop : Nat → Int → Int → Linebuffer → List (Char × String) →
    PRes (List (Char × String) × Linebuffer)
  | 0, _, _, _, _ => .error .fuelOut
  | fuel + 1, la, lb, src, acc =>
    if la = 0 ∧ lb = 0 then .ok (acc, src)
    else
      let hline := src.readline.1
      let src₂ := src.readline.2
      if hline = "" ∨ hline = "\n" ∨ hline = "\r\n" then
        parseUnifiedLoop fuel (la - 1) (lb - 1) src₂ (acc ++ [(' ', hline)])
      else
        match hline.data with
        | [] => parseUnifiedLoop fuel la lb src₂ acc  -- unreachable: hline ≠ ""
        | c :: cs =>
          parseUnifiedLoop fuel
            (if c = ' ' ∨ c = '-' then la - 1 else la)
            (if c = ' ' ∨ c = '+' then lb - 1 else lb)
            src₂ (acc ++ [(c, String.mk cs)])

/-- The `if sa == 0 and la == 0 ... / elif sb == 0 and lb == 0 ...` step at
the top of `_parse_unified` (lines 333-339): with a `0,0` old side the
change is replaced by `Add(change.dest, None)` unless it is already an
`Add`, else with a `0,0` new side by `Delete(change.source, None)` unless
already a `Delete`. -/
def unifiedUpgrade (change : Change) (sa la sb lb : Nat) : Change :=
  if sa = 0 ∧ la = 0 ∧ change.kind ≠ ChangeKind.add then
    { kind := .add, dest := change.dest, new_mode := none }
  else if sb = 0 ∧ lb = 0 ∧ change.kind ≠ ChangeKind.delete then
    { kind := .delete, source := change.source, old_mode := none }
  else change

/-- `change.hunks.append(hunk)` for a completed text hunk. -/
def appendTextHunk (c : Change) (th : TextHunk) : Change :=
  { c with hunks := c.hunks ++ [Hunk.text th] }

/-- `_parse_unified(change, line, source, encoding)`: parse the header,
upgrade the change to `Add` when the old side is `0,0` (resp. `Delete` when
the new side is `0,0`), run the body loop with the header's `lenA`/`lenB`
as the counters, handle a following `\ No newline at end of file` marker
(otherwise push that line back), and append the completed hunk, whose
stored header fields are the originally parsed values. -/
def parse_unified (fuel : Nat) (change : Change) (line : String)
    (src : Linebuffer) : PRes (Change × Linebuffer) :=
  match parseUnifiedLoop fuel ((parse_unified_header line).2.1 : Int)
      ((parse_unified_header line).2.2.2 : Int) src [] with
  | .error e => .error e
  | .ok (lns, src₂) =>
    if pyStartsWith (src₂.readline.1) "\\ " then
      match fixFinalNewline lns with
      | .error e => .error e
      | .ok lns' =>
        .ok (appendTextHunk
               (unifiedUpgrade change (parse_unified_header line).1
                 (parse_unified_header line).2.1 (parse_unified_header line).2.2.1
                 (parse_unified_header line).2.2.2)
               ⟨(parse_unified_header line).1, (parse_unified_header line).2.1,
                (parse_unified_header line).2.2.1, (parse_unified_header line).2.2.2,
                lns'⟩,
             src₂.readline.2)
    else
      .ok (appendTextHunk
             (unifiedUpgrade change (parse_unified_header line).1
               (parse_unified_header line).2.1 (parse_unified_header line).2.2.1
               (parse_unified_header line).2.2.2)
             ⟨(parse_unified_header line).1, (parse_unified_header line).2.1,
              (parse_unified_header line).2.2.1, (parse_unified_header line).2.2.2,
              lns⟩,
           (src₂.readline.2).push (src₂.readline.1))

/-! ## Git extended-header handlers (diffparser.py lines 174-214)

`_handle_rename_from` receives the text captured by
`rename\s+(?:from|old)\s+(.*)$` already passed through `_extract_name`
(strip + optional quoted-name scan); the extracted name is the `name`
argument here — its value never touches the hunk list.  `_handle_delete`
ignores the current change entirely and builds
`Delete(defname, int(match.group(1), 8))` from the default filename and the
octal mode digits. -/

/-- `_handle_rename_from`: continue an existing `Rename` in place, otherwise
replace the change with a fresh `Rename(source=name)`. -/
def handle_rename_from (name : String) (change : Change) : Change :=
  if change.kind = ChangeKind.rename then { change with source := some name }
  else { kind := .rename, source := some name }

/-- `_handle_delete`: replace the change with
`Delete(defname, int(match.group(1), 8))`. -/
def handle_delete (defname : Option String) (modeOctal : String)
    (_change : Change) : Change :=
  { kind := .delete, source := defname, old_mode := some (octalVal modeOctal.data) }

/-- Number of stored hunk lines carrying marker `m`. -/
def countMarker (m : Char) (ls : List (Char × String)) : Nat :=
  (ls.filter fun p => p.1 = m).length

/-! ## Lemmas about the unified hunk body loop -/

theorem countMarker_snoc (m c : Char) (s : String) (ls : List (Char × String)) :
    countMarker m (ls ++ [(c, s)]) =
      countMarker m ls + (if c = m then 1 else 0) := by
  by_cases hc : c = m <;> simp [countMarker, List.filter_append, hc]

/-- `fix_final_newline` rewrites only the text of the last stored line, so
per-marker line counts are unchanged. -/
theorem fixFinalNewline_countMarker (m : Char) (ls ls₂ : List (Char × String))
    (h : fixFinalNewline ls = .ok ls₂) :
    countMarker m ls₂ = countMarker m ls := by
  unfold fixFinalNewline at h
  rcases hl : ls.getLast? with _ | l
  · rw [hl] at h; exact absurd h (by simp)
  · rw [hl] at h
    simp only [Except.ok.injEq] at h
    subst h
    conv_rhs => rw [← List.dropLast_append_getLast? l hl]
    rw [countMarker_snoc, countMarker_snoc]

/-- Loop invariant of the `while la or lb` body loop: on normal exit the
context+removed count has grown by exactly `la` and the context+added count
by exactly `lb`. -/
theorem parseUnifiedLoop_counts (fuel : Nat) :
    ∀ (la lb : Int) (src : Linebuffer) (acc lns : List (Char × String))
      (src' : Linebuffer),
      parseUnifiedLoop fuel la lb src acc = .ok (lns, src') →
      ((countMarker ' ' lns : Int) + (countMarker '-' lns : Int)
          = (countMarker ' ' acc : Int) + (countMarker '-' acc : Int) + la) ∧
      ((countMarker ' ' lns : Int) + (countMarker '+' lns : Int)
          = (countMarker ' ' acc : Int) + (countMarker '+' acc : Int) + lb) := by
  induction fuel with
  | zero =>
    intro la lb src acc lns src' h
    exact absurd h (by simp [parseUnifiedLoop])
  | succ n ih =>
    intro la lb src acc lns src' h
    rw [parseUnifiedLoop] at h
    by_cases h0 : la = 0 ∧ lb = 0
    · rw [if_pos h0] at h
      simp only [Except.ok.injEq, Prod.mk.injEq] at h
      obtain ⟨rfl, rfl⟩ := h
      omega
    · rw [if_neg h0] at h
      simp only at h
      by_cases hb : src.readline.1 = "" ∨ src.readline.1 = "\n" ∨
          src.readline.1 = "\r\n"
      · rw [if_pos hb] at h
        have := ih _ _ _ _ _ _ h
        rw [countMarker_snoc, countMarker_snoc, countMarker_snoc] at this
        simp only [if_pos rfl] at this
        have e1 : ¬(' ' = '-') := by decide
        have e2 : ¬(' ' = '+') := by decide
        rw [if_neg e1, if_neg e2] at this
        push_cast at this ⊢
        omega
      · rw [if_neg hb] at h
        rcases hd : (src.readline.1).data with _ | ⟨c, cs⟩
        · rw [hd] at h
          have := ih _ _ _ _ _ _ h
          omega
        · rw [hd] at h
          have := ih _ _ _ _ _ _ h
          simp only [countMarker_snoc] at this
          by_cases hsp : c = ' '
          · subst hsp
            simp at this
            omega
          · by_cases hmn : c = '-'
            · subst hmn
              simp at this
              omega
            · by_cases hpl : c = '+'
              · subst hpl
                simp at this
                omega
              · simp [hsp, hmn, hpl] at this
                omega

/-- At end of input with `la ≠ lb`, the body loop never terminates: each
round reads the permanent `''` of a drained source, stores a context line
and decrements both counters, so they pass zero together at distance
`la - lb` and `while la or lb` (Python truthiness: any nonzero int) never
becomes false. -/
theorem parseUnifiedLoop_empty_diverges (fuel : Nat) :
    ∀ (la lb : Int) (acc : List (Char × String)), la ≠ lb →
      parseUnifiedLoop fuel la lb (Linebuffer.mk [] []) acc =
        .error PErr.fuelOut := by
  induction fuel with
  | zero => intro la lb acc _; rfl
  | succ n ih =>
    intro la lb acc hne
    rw [parseUnifiedLoop]
    rw [if_neg (by rintro ⟨h1, h2⟩; exact hne (h1.trans h2.symm))]
    have hr : (Linebuffer.mk [] []).readline = ("", Linebuffer.mk [] []) := rfl
    rw [hr]
    rw [if_pos (Or.inl rfl)]
    exact ih _ _ _ (by omega)

/-- The concrete in-progress change used by several runs below: a plain
modification of `"f"`. -/
def chMod : Change := { kind := .modify, source := some "f", dest := some "f" }


/-- Claim C7: the claim says `_parse_unified` terminates on every input,
including inputs that end mid-hunk, simply ceasing to accumulate lines.  In
fact, when the input ends before the body is complete, `readline` returns
`''` forever; each `''` is stored as a context line and decrements BOTH
counters, so whenever the remaining old-side and new-side counts differ the
counters skip past the `la = lb = 0` exit together and go negative — and
Python's `while la or lb` treats negative ints as true.  On the header
`@@ -1,2 +1,1 @@` with no body at all, the parse exhausts every amount of
fuel: it diverges instead of terminating. -/
theorem parse_unified_nontermination (fuel : Nat) :
    parse_unified fuel chMod "@@ -1,2 +1,1 @@\n" (Linebuffer.mk [] []) =
      .error PErr.fuelOut := by
  have hdr : parse_unified_header "@@ -1,2 +1,1 @@\n" = (1, 2, 1, 1) := by decide
  rw [parse_unified, hdr]
  dsimp only
  have hl := parseUnifiedLoop_empty_diverges fuel ((2 : Nat) : Int)
    ((1 : Nat) : Int) [] (by decide)
  rw [hl]

/-- The appended hunk is the last element of the hunk list. -/
theorem appendTextHunk_getLast (c : Change) (th : TextHunk) :
    (appendTextHunk c th).hunks.getLast? = some (Hunk.text th) := by
  simp [appendTextHunk, List.getLast?_concat]

/-- Claim C5: for every run of `_parse_unified` that completes normally, the
appended hunk stores the header's `lenA`/`lenB` in `len_a`/`len_b`, and its
stored body lines satisfy `#context + #removed = len_a` and
`#context + #added = len_b` (a blank or empty body line having been stored
as a context line, counted against both header lengths). -/
theorem unified_hunk_line_counts (fuel : Nat) (change : Change) (line : String)
    (src : Linebuffer) (change' : Change) (src' : Linebuffer)
    (h : parse_unified fuel change line src = .ok (change', src')) :
    ∃ th : TextHunk, change'.hunks.getLast? = some (Hunk.text th) ∧
      th.len_a = (parse_unified_header line).2.1 ∧
      th.len_b = (parse_unified_header line).2.2.2 ∧
      countMarker ' ' th.lines + countMarker '-' th.lines = th.len_a ∧
      countMarker ' ' th.lines + countMarker '+' th.lines = th.len_b := by
  rw [parse_unified] at h
  split at h
  · exact absurd h (by simp)
  · rename_i lns src₂ hres
    have hcounts := parseUnifiedLoop_counts fuel _ _ _ _ _ _ hres
    simp only [show ∀ m : Char, countMarker m [] = 0 from fun _ => rfl,
      Nat.cast_zero, zero_add] at hcounts
    split at h
    · -- a `\ No newline at end of file` marker followed
      split at h
      · exact absurd h (by simp)
      · rename_i lns₂ hfix
        simp only [Except.ok.injEq, Prod.mk.injEq] at h
        obtain ⟨hc, -⟩ := h
        subst hc
        have hf1 := fixFinalNewline_countMarker ' ' lns lns₂ hfix
        have hf2 := fixFinalNewline_countMarker '-' lns lns₂ hfix
        have hf3 := fixFinalNewline_countMarker '+' lns lns₂ hfix
        refine ⟨⟨(parse_unified_header line).1, (parse_unified_header line).2.1,
          (parse_unified_header line).2.2.1, (parse_unified_header line).2.2.2,
          lns₂⟩, appendTextHunk_getLast _ _, rfl, rfl, ?_, ?_⟩ <;>
          (dsimp only; omega)
    · simp only [Except.ok.injEq, Prod.mk.injEq] at h
      obtain ⟨hc, -⟩ := h
      subst hc
      refine ⟨⟨(parse_unified_header line).1, (parse_unified_header line).2.1,
        (parse_unified_header line).2.2.1, (parse_unified_header line).2.2.2,
        lns⟩, appendTextHunk_getLast _ _, rfl, rfl, ?_, ?_⟩ <;>
        (dsimp only; omega)

/-- Input for the C5 witness run: header `@@ -2,3 +2,3 @@` with one context
line, one removal, one addition and one blank body line (the blank line
counts against both sides), followed by a line of the next hunk. -/
def srcU : Linebuffer := Linebuffer.mk [] [" a\n", "-b\n", "+c\n", "\n", " d\n"]

/-- Claim C5 witness: a concrete successful `_parse_unified` run on the
header `@@ -2,3 +2,3 @@` whose body contains a blank line; the stored
hunk's context+removed and context+added counts both equal 3. -/
theorem unified_hunk_line_counts_witness :
    ∃ c' src', parse_unified 10 chMod "@@ -2,3 +2,3 @@\n" srcU = .ok (c', src') ∧
      ∃ th : TextHunk, c'.hunks.getLast? = some (Hunk.text th) ∧
        countMarker ' ' th.lines + countMarker '-' th.lines = th.len_a ∧
        countMarker ' ' th.lines + countMarker '+' th.lines = th.len_b := by
  have hrun : parse_unified 10 chMod "@@ -2,3 +2,3 @@\n" srcU =
      .ok ({ kind := .modify, source := some "f", dest := some "f",
             hunks := [Hunk.text ⟨2, 3, 2, 3,
               [(' ', "a\n"), ('-', "b\n"), ('+', "c\n"), (' ', "\n")]⟩] },
           Linebuffer.mk [" d\n"] []) := rfl
  obtain ⟨th, h1, -, -, h4, h5⟩ :=
    unified_hunk_line_counts 10 chMod "@@ -2,3 +2,3 @@\n" srcU _ _ hrun
  exact ⟨_, _, hrun, th, h1, h4, h5⟩

/-- A change that already carries a hunk, about to be "upgraded". -/
def chWithHunk : Change :=
  { kind := .modify, source := some "f", dest := some "f",
    hunks := [Hunk.text ⟨1, 1, 1, 1, [(' ', "x\n")]⟩] }

/-- Claim C1 counterexample: the claim says an upgrade of the in-progress
change never loses previously attached hunks.  But every upgrade site
builds a fresh change object whose `hunks` list starts empty: parsing the
second hunk header `@@ -0,0 +1,1 @@` on a change that already holds one
hunk replaces it with `Add(change.dest, None)`, and the previously attached
hunk is no longer attached afterwards. -/
theorem upgrade_loses_hunks_cex :
    Hunk.text ⟨1, 1, 1, 1, [(' ', "x\n")]⟩ ∈ chWithHunk.hunks ∧
    parse_unified 10 chWithHunk "@@ -0,0 +1,1 @@\n" (Linebuffer.mk [] ["+y\n"]) =
      .ok ({ kind := .add, dest := some "f",
             hunks := [Hunk.text ⟨0, 0, 1, 1, [('+', "y\n")]⟩] },
           Linebuffer.mk [""] []) ∧
    Hunk.text ⟨1, 1, 1, 1, [(' ', "x\n")]⟩ ∉
      [Hunk.text ⟨0, 0, 1, 1, [('+', "y\n")]⟩] :=
  ⟨by decide, rfl, by decide⟩

/-- Claim C1 (amended): upgrading the in-progress change to a different
variant discards previously attached hunks — the handlers and the `0,0`
header path build a fresh change whose hunk list starts empty (so the
upgraded change carries exactly the newly parsed hunk in the unified case);
hunks are preserved only when the variant does not change (e.g. a
`rename from` on a change that is already a `Rename`). -/
theorem upgrade_empties_hunks (nm : String) (d : Option String)
    (modeOctal : String) (c : Change) :
    (c.kind ≠ ChangeKind.rename → (handle_rename_from nm c).hunks = []) ∧
    (c.kind = ChangeKind.rename → (handle_rename_from nm c).hunks = c.hunks) ∧
    (handle_delete d modeOctal c).hunks = [] ∧
    (∀ fuel line src c' src', parse_unified fuel c line src = .ok (c', src') →
      (parse_unified_header line).1 = 0 → (parse_unified_header line).2.1 = 0 →
      c.kind ≠ ChangeKind.add → c'.hunks.length = 1) := by
  refine ⟨?_, ?_, rfl, ?_⟩
  · intro hk; simp [handle_rename_from, hk]
  · intro hk; simp [handle_rename_from, hk]
  · intro fuel line src c' src' h hsa hla hk
    rw [parse_unified] at h
    split at h
    · exact absurd h (by simp)
    · rename_i lns src₂ hres
      split at h
      · split at h
        · exact absurd h (by simp)
        · rename_i lns₂ hfix
          simp only [Except.ok.injEq, Prod.mk.injEq] at h
          obtain ⟨hc, -⟩ := h
          subst hc
          simp [appendTextHunk, unifiedUpgrade, hsa, hla, hk]
      · simp only [Except.ok.injEq, Prod.mk.injEq] at h
        obtain ⟨hc, -⟩ := h
        subst hc
        simp [appendTextHunk, unifiedUpgrade, hsa, hla, hk]

/-- Claim C1 (amended) witness: concrete upgrades of `chWithHunk` — by
`rename from`, by `deleted file mode`, and by a `0,0` unified header — each
leaving the fresh change without the previously attached hunk. -/
theorem upgrade_empties_hunks_witness :
    (handle_rename_from "g" chWithHunk).hunks = [] ∧
    (handle_delete (some "f") "100644" chWithHunk).hunks = [] ∧
    ∃ c' src', parse_unified 10 chWithHunk "@@ -0,0 +1,1 @@\n"
        (Linebuffer.mk [] ["+y\n"]) = .ok (c', src') ∧ c'.hunks.length = 1 := by
  obtain ⟨h1, -, h3, h4⟩ :=
    upgrade_empties_hunks "g" (some "f") "100644" chWithHunk
  have hrun : parse_unified 10 chWithHunk "@@ -0,0 +1,1 @@\n"
      (Linebuffer.mk [] ["+y\n"]) =
      .ok ({ kind := .add, dest := some "f",
             hunks := [Hunk.text ⟨0, 0, 1, 1, [('+', "y\n")]⟩] },
           Linebuffer.mk [""] []) := rfl
  exact ⟨h1 (by decide), h3, _, _, hrun,
    h4 10 "@@ -0,0 +1,1 @@\n" (Linebuffer.mk [] ["+y\n"]) _ _ hrun
      (by decide) (by decide) (by decide)⟩

/-! ## Context hunk parser (`_parse_context`, diffparser.py lines 369-442) -/

/-- Python slicing `s[n:]`. -/
def pyDrop (s : String) (n : Nat) : String := ⟨s.data.drop n⟩

/-- Python `list.insert(i, x)` (with `0 ≤ i`; an index past the end
appends). -/
def pyInsert {α : Type} (l : List α) (i : Nat) (x : α) : List α :=
  l.take i ++ [x] ++ l.drop i

/-- The first-pass `while la:` loop (lines 382-393).  Note that the body
never decrements `la`: the loop runs until end of input or a line starting
with `---` (which is pushed back); `! `/`- ` lines are stored as removed,
`  ` lines as context, anything else is dropped. -/
def parseContextLoop1 : Nat → Int → Linebuffer → List (Char × String) →
    PRes (List (Char × String) × Linebuffer)
  | 0, _, _, _ => .error .fuelOut
  | fuel + 1, la, src, acc =>
    if la = 0 then .ok (acc, src)
    else
      let hline := src.readline.1
      let src₂ := src.readline.2
      if hline = "" then .ok (acc, src₂)
      else if pyStartsWith hline "---" then .ok (acc, src₂.push hline)
      else if pyStartsWith hline "! " ∨ pyStartsWith hline "- " then
        parseContextLoop1 fuel la src₂ (acc ++ [('-', pyDrop hline 2)])
      else if pyStartsWith hline "  " then
        parseContextLoop1 fuel la src₂ (acc ++ [(' ', pyDrop hline 2)])
      else parseContextLoop1 fuel la src₂ acc

/-- The inner `while True:` merge loop (lines 420-431): examine
`hunk.lines[ndx]` (a `(' ', '')` placeholder past the end), advance `ndx`,
stop on an identical entry, skip removed entries, and otherwise insert the
new entry at `ndx - 1` — after which the loop continues (there is no
`break` after the insert in the source). -/
def mergeInsertLoop : Nat → List (Char × String) → Nat → (Char × String) →
    PRes (List (Char × String) × Nat)
  | 0, _, _, _ => .error .fuelOut
  | fuel + 1, lines, ndx, n =>
    let h := if lines.length ≤ ndx then (' ', "") else lines.getD ndx (' ', "")
    let ndx₂ := ndx + 1
    if h = n then .ok (lines, ndx₂)
    else if h.1 = '-' then mergeInsertLoop fuel lines ndx₂ n
    else mergeInsertLoop fuel (pyInsert lines (ndx₂ - 1) n) ndx₂ n

/-- The second-pass `while lb:` loop (lines 410-431).  `lb` is never
decremented either; the loop ends only at end of input.  A line matching
no prefix leaves `n` bound to its previous value (`nPrev`); on the first
iteration `n` has no value yet, so using it raises `NameError`. -/
def parseContextLoop2 : Nat → Int → Linebuffer → List (Char × String) →
    Nat → Option (Char × String) → PRes (List (Char × String) × Linebuffer)
  | 0, _, _, _, _, _ => .error .fuelOut
  | fuel + 1, lb, src, lines, ndx, nPrev =>
    if lb = 0 then .ok (lines, src)
    else
      let hline := src.readline.1
      let src₂ := src.readline.2
      if hline = "" then .ok (lines, src₂)
      else
        let nOpt :=
          if pyStartsWith hline "! " ∨ pyStartsWith hline "+ " then
            some ('+', pyDrop hline 2)
          else if pyStartsWith hline "  " then some (' ', pyDrop hline 2)
          else nPrev
        match nOpt with
        | none => .error (.exn (.nameError "n"))
        | some n =>
          match mergeInsertLoop fuel lines ndx n with
          | .error e => .error e
          | .ok (lines₂, _ndx₂) =>
            parseContextLoop2 fuel lb src₂ lines₂ _ndx₂ (some n)

/-- The `Add` upgrade at the top of `_parse_context` (lines 378-379). -/
def contextUpgradeAdd (change : Change) (sa la : Nat) : Change :=
  if sa = 0 ∧ la = 0 ∧ change.kind ≠ ChangeKind.add then
    { kind := .add, dest := change.dest, new_mode := none }
  else change

/-- The `Delete` upgrade before the second pass (lines 406-407). -/
def contextUpgradeDelete (change : Change) (sb lb : Nat) : Change :=
  if sb = 0 ∧ lb = 0 ∧ change.kind ≠ ChangeKind.delete then
    { kind := .delete, source := change.source, old_mode := none }
  else change

/-- The second half of `_parse_context` starting at `# Parse the second
part` (line 402).  Faithful to the source, `sb, lb =
_parse_context_header(line)` re-parses the SAME `line` argument that was
passed to `_parse_context` — it does not read the `--- <start>[,<len>]
----` line that the first pass pushed back onto the input. -/
def parseContextSecond (fuel : Nat) (change : Change) (line : String)
    (src : Linebuffer) (lns : List (Char × String)) (sa la : Nat) :
    PRes (Change × Linebuffer) :=
  match parseContextLoop2 fuel ((parse_context_header line).2 : Int)
      src lns 1 none with
  | .error e => .error e
  | .ok (lns₂, src₃) =>
    if pyStartsWith src₃.readline.1 "\\ " then
      match fixFinalNewline lns₂ with
      | .error e => .error e
      | .ok lns₃ =>
        .ok (appendTextHunk
               (contextUpgradeDelete change (parse_context_header line).1
                 (parse_context_header line).2)
               ⟨sa, la, 0, 0, lns₃⟩, src₃.readline.2)
    else
      .ok (appendTextHunk
             (contextUpgradeDelete change (parse_context_header line).1
               (parse_context_header line).2)
             ⟨sa, la, 0, 0, lns₂⟩, (src₃.readline.2).push src₃.readline.1)

/-- `_parse_context(change, line, source, encoding)`: first pass over the
old side, `\ No newline` handling, then the second pass
(`parseContextSecond`).  The hunk is created as `TextHunk(sa, la, 0, 0)` —
its new-side fields stay 0. -/
def parse_context (fuel : Nat) (change : Change) (line : String)
    (src : Linebuffer) : PRes (Change × Linebuffer) :=
  match parseContextLoop1 fuel ((parse_context_header line).2 : Int) src [] with
  | .error e => .error e
  | .ok (lns, src₂) =>
    if pyStartsWith src₂.readline.1 "\\ " then
      match fixFinalNewline lns with
      | .error e => .error e
      | .ok lns₂ =>
        parseContextSecond fuel
          (contextUpgradeAdd change (parse_context_header line).1
            (parse_context_header line).2)
          line src₂.readline.2 lns₂
          (parse_context_header line).1 (parse_context_header line).2
    else
      parseContextSecond fuel
        (contextUpgradeAdd change (parse_context_header line).1
          (parse_context_header line).2)
        line ((src₂.readline.2).push src₂.readline.1) lns
        (parse_context_header line).1 (parse_context_header line).2

/-- A complete, well-formed context-format hunk as it reaches
`_parse_context`: the `***************` separator is the `line` argument
and the two range headers plus body lines are next on the input. -/
def srcCtx : Linebuffer :=
  Linebuffer.mk [] ["*** 1,2 ****\n", "  a\n", "- b\n", "--- 1,1 ----\n", "  a\n"]

/-- Claim C8: the claim says the second pass reads the `--- <start>[,<len>]
----` header line from the input to obtain the new-side start and length and
then merge-inserts up to `lenB` new-side lines.  The code instead calls
`_parse_context_header(line)` on the SAME line it was handed — the
`***************` separator, which the header regex does not match, giving
`(0, 0)` — so no new-side line is ever read and the merge-insertion loop
never runs.  (The first pass gets `(0, 0)` from the separator too, so the
old side is not read either, the change is spuriously upgraded to `Add` and
then `Delete`, and an empty `TextHunk(0,0,0,0)` is appended while every
hunk line, including the `--- 1,1 ----` header the claim says is read, is
still unconsumed on the input.)  The real headers, e.g. `*** 1,2 ****`,
do match the regex, as the last conjunct shows. -/
theorem parse_context_ignores_second_header :
    parse_context 10 chMod "***************\n" srcCtx =
      .ok ({ kind := .delete, hunks := [Hunk.text ⟨0, 0, 0, 0, []⟩] },
           Linebuffer.mk ["*** 1,2 ****\n"]
             ["  a\n", "- b\n", "--- 1,1 ----\n", "  a\n"]) ∧
    parse_context_header "***************\n" = (0, 0) ∧
    parse_context_header "*** 1,2 ****\n" = (1, 2) ∧
    parse_context_header "--- 1,1 ----\n" = (1, 1) :=
  ⟨rfl, by decide, by decide, by decide⟩

/-! ## Binary hunk parser (`_parse_binary_hunk` / `_parse_binary`,
diffparser.py lines 444-510)

`base85_decode` comes from `mercury/base85.py` (star-imported by
diffparser.py); that file is not among the provided sources, so it is modelled
from the spec below.  `zlib.decompress` is the standard-library DEFLATE
decompressor (spec §6: a collaborator interface `inflate(bytes) -> bytes`
failing on corrupt streams); it is passed in as the function parameter
`inflate`, with `none` modelling the exception its failure raises. -/

/-- Modelled from the spec: `mercury/base85.py` is absent from the provided
sources; §6 specifies its interface as `decode(ascii_chunk: bytes) ->
bytes`, failing on invalid alphabet characters, and §4.6 calls it "a
standard 85-alphabet decoder".  This is git's base85 alphabet. -/
def base85Alphabet : List Char :=
  ("0123456789ABCDEFGHIJKLMNOPQRSTUVWXYZabcdefghijklmnopqrstuvwxyz" ++
   "!#$%&()*+-;<=>?@^_\x60\x7b|\x7d~").data

/-- Position of a character in the base85 alphabet. -/
def b85ValAux : List Char → Char → Nat → Option Nat
  | [], _, _ => none
  | a :: rest, c, i => if a = c then some i else b85ValAux rest c (i + 1)

/-- Modelled from the spec: value of one base85 digit; `none` on a
character outside the alphabet. -/
def b85Val (c : Char) : Option Nat := b85ValAux base85Alphabet c 0

/-- Modelled from the spec: git-style base85 decoding — every 5 input
characters encode one 32-bit group, emitted as 4 bytes most significant
first; an invalid alphabet character (or a trailing partial group, which
the caller's line-length check already excludes) is a failure. -/
def base85DecodeAux : Nat → List Char → Option (List Nat)
  | _, [] => some []
  | 0, _ :: _ => none
  | fuel + 1, c1 :: c2 :: c3 :: c4 :: c5 :: rest =>
    match b85Val c1, b85Val c2, b85Val c3, b85Val c4, b85Val c5 with
    | some v1, some v2, some v3, some v4, some v5 =>
      match base85DecodeAux fuel rest with
      | none => none
      | some bs =>
        let acc := (((v1 * 85 + v2) * 85 + v3) * 85 + v4) * 85 + v5
        some ([acc / 16777216 % 256, acc / 65536 % 256,
               acc / 256 % 256, acc % 256] ++ bs)
    | _, _, _, _, _ => none
  | _ + 1, _ => none

/-- Modelled from the spec: `base85_decode(s)`. -/
def base85_decode (s : String) : Option (List Nat) :=
  base85DecodeAux s.data.length s.data

/-- The length-byte decoding of `_parse_binary_hunk` (lines 471-477):
`'A'`-`'Z'` encode 1-26, `'a'`-`'z'` encode 27-52, anything else is a
corrupt length byte. -/
def letterLen (c : Char) : Option Nat :=
  if 'A' ≤ c ∧ c ≤ 'Z' then some (c.toNat - 'A'.toNat + 1)
  else if 'a' ≤ c ∧ c ≤ 'z' then some (c.toNat - 'a'.toNat + 27)
  else none

/-- `re.match` of `_METHOD_LINE_RE` `(\w+)\s+(\d+)`. -/
def matchMethodLine (line : String) : Option (String × Nat) :=
  let w := line.data.span fun c => c.isAlpha ∨ c.isDigit ∨ c = '_'
  if w.1.isEmpty then none else
  let ws := w.2.span pyIsSpace
  if ws.1.isEmpty then none else
  let d := ws.2.span Char.isDigit
  if d.1.isEmpty then none else
  some (⟨w.1⟩, digitsVal d.1)

/-- The data-line loop of `_parse_binary_hunk` (lines 461-484): read and
strip a line; a blank line ends the sub-block; a bad line length or a
length byte outside `A`-`Z`/`a`-`z` is a fatal `BadBinaryHunk`; the rest of
the line is base85-decoded, and fewer decoded bytes than the declared chunk
length is a fatal `BadBinaryHunk`, otherwise exactly `blen` bytes are kept
and the loop continues. -/
def parseBinaryHunkData : Nat → Linebuffer → List (List Nat) →
    PRes (List (List Nat) × Linebuffer)
  | 0, _, _ => .error .fuelOut
  | fuel + 1, src, acc =>
    let line := pyStrip src.readline.1
    if line = "" then .ok (acc, src.readline.2)
    else if line.length < 6 ∨ (line.length - 1) % 5 ≠ 0 then
      .error (.exn (.badBinaryHunk "corrupt binary patch - bad line length"))
    else
      match line.data with
      | [] => .error (.exn .indexError)  -- unreachable: line ≠ ""
      | c :: _ =>
        match letterLen c with
        | none =>
          .error (.exn (.badBinaryHunk "corrupt binary patch - bad length byte"))
        | some blen =>
          match base85_decode (pyDrop line 1) with
          | none => .error (.exn .base85Error)
          | some newData =>
            if newData.length < blen then
              .error (.exn (.badBinaryHunk "corrupt binary patch - length mismatch"))
            else parseBinaryHunkData fuel src.readline.2 (acc ++ [newData.take blen])

/-- `_parse_binary_hunk(change, source, encoding, reverse)`: read the
`<method> <length>` line (pushing it back and returning `None` when it does
not match or the method is unknown), read the data lines, and inflate; a
decompression failure is a fatal `BadBinaryHunk`. -/
def parse_binary_hunk (fuel : Nat) (inflate : List Nat → Option (List Nat))
    (src : Linebuffer) (reverse : Bool) : PRes (Option BinaryHunk × Linebuffer) :=
  match matchMethodLine src.readline.1 with
  | none => .ok (none, (src.readline.2).push src.readline.1)
  | some (method, olen) =>
    if method ≠ "literal" ∧ method ≠ "delta" then
      .ok (none, (src.readline.2).push src.readline.1)
    else
      match parseBinaryHunkData fuel src.readline.2 [] with
      | .error e => .error e
      | .ok (chunks, src₃) =>
        match inflate chunks.flatten with
        | none =>
          .error (.exn (.badBinaryHunk "corrupt binary patch - unable to decompress"))
        | some d => .ok (some ⟨olen, method, d, reverse⟩, src₃)

/-- `if change.source is None: change.source = default_filename` (and
likewise for `dest`): keep an endpoint that is already set, fill in the
default otherwise. -/
def fillDefault (cur d : Option String) : Option String :=
  match cur with
  | none => d
  | some s => some s

/-- The two defaulting assignments at the top of `_parse_binary`
(lines 495-498). -/
def fillChange (change : Change) (d : Option String) : Change :=
  { change with source := fillDefault change.source d,
                dest := fillDefault change.dest d }

/-- `change.hunks.append(hunk)` for a binary hunk. -/
def appendBinaryHunk (c : Change) (b : BinaryHunk) : Change :=
  { c with hunks := c.hunks ++ [Hunk.binary b] }

/-- `change.binary = True`. -/
def setBinaryTrue (c : Change) : Change := { c with binary := true }

/-- `_parse_binary(change, source, encoding, default_filename)`: fill in
defaulted endpoints FIRST, then parse the forward hunk (its absence is the
fatal "unrecognised binary patch"), append it, optionally parse and append
the reverse hunk, and mark the change binary. -/
def parse_binary (fuel : Nat) (inflate : List Nat → Option (List Nat))
    (change : Change) (src : Linebuffer) (default_filename : Option String) :
    PRes (Change × Linebuffer) :=
  match parse_binary_hunk fuel inflate src false with
  | .error e => .error e
  | .ok (none, _) => .error (.exn (.badBinaryHunk "unrecognised binary patch"))
  | .ok (some fwd, src₂) =>
    match parse_binary_hunk fuel inflate src₂ true with
    | .error e => .error e
    | .ok (none, src₃) =>
      .ok (setBinaryTrue
             (appendBinaryHunk (fillChange change default_filename) fwd), src₃)
    | .ok (some rev, src₃) =>
      .ok (setBinaryTrue
             (appendBinaryHunk
               (appendBinaryHunk (fillChange change default_filename) fwd) rev),
           src₃)

/-- Claim C6: one step of the binary-patch data-line loop behaves exactly
as claimed, for every line whose (stripped) length passes the block-size
check: a blank line ends the sub-block; a first character outside
`A`-`Z`/`a`-`z` (i.e. `letterLen c = none`) is the malformed-binary-patch
error; when the base85-decoded remainder holds fewer bytes than the chunk
length the malformed-binary-patch error is raised rather than silently
truncating; otherwise exactly `blen` bytes are kept, appended to the data
gathered so far, and the loop continues with the rest of the input. -/
theorem binary_hunk_line_step (fuel : Nat) (src : Linebuffer)
    (acc : List (List Nat)) :
    (pyStrip src.readline.1 = "" →
      parseBinaryHunkData (fuel + 1) src acc = .ok (acc, src.readline.2)) ∧
    (∀ c cs, (pyStrip src.readline.1).data = c :: cs →
      ¬((pyStrip src.readline.1).length < 6 ∨
        ((pyStrip src.readline.1).length - 1) % 5 ≠ 0) →
      (letterLen c = none →
        parseBinaryHunkData (fuel + 1) src acc =
          .error (.exn (.badBinaryHunk "corrupt binary patch - bad length byte"))) ∧
      (∀ blen bs, letterLen c = some blen →
        base85_decode (pyDrop (pyStrip src.readline.1) 1) = some bs →
        (bs.length < blen →
          parseBinaryHunkData (fuel + 1) src acc =
            .error (.exn (.badBinaryHunk "corrupt binary patch - length mismatch"))) ∧
        (¬bs.length < blen →
          parseBinaryHunkData (fuel + 1) src acc =
            parseBinaryHunkData fuel src.readline.2 (acc ++ [bs.take blen])))) := by
  constructor
  · intro hb
    simp only [parseBinaryHunkData, if_pos hb]
  · intro c cs hd hlen
    have hne : pyStrip src.readline.1 ≠ "" := by
      intro he; rw [he] at hd; exact absurd hd (by simp [String.data])
    constructor
    · intro hl
      simp only [parseBinaryHunkData, if_neg hne, if_neg hlen, hd, hl]
    · intro blen bs hl hdec
      constructor
      · intro hlt
        simp only [parseBinaryHunkData, if_neg hne, if_neg hlen, hd, hl, hdec,
          if_pos hlt]
      · intro hge
        simp only [parseBinaryHunkData, if_neg hne, if_neg hlen, hd, hl, hdec,
          if_neg hge]

/-- Claim C6 witness: the line `J00000` declares a 10-byte chunk (`'J'`)
but its base85 remainder decodes to only 4 bytes, so the loop raises the
malformed-binary-patch length-mismatch error. -/
theorem binary_hunk_line_step_witness :
    parseBinaryHunkData 5 (Linebuffer.mk [] ["J00000\n"]) [] =
      .error (.exn (.badBinaryHunk "corrupt binary patch - length mismatch")) ∧
    pyStrip "J00000\n" = "J00000" ∧ letterLen 'J' = some 10 ∧
    base85_decode "00000" = some [0, 0, 0, 0] := by
  obtain ⟨-, h2⟩ := binary_hunk_line_step 4 (Linebuffer.mk [] ["J00000\n"]) []
  obtain ⟨-, h3⟩ := h2 'J' ['0', '0', '0', '0', '0'] (by decide) (by decide)
  obtain ⟨h4, -⟩ := h3 10 [0, 0, 0, 0] (by decide) (by decide)
  exact ⟨h4 (by decide), by decide, by decide, by decide⟩

/-- Claim C10: whenever `_parse_binary` returns normally, the returned
change's endpoints are the original ones when they were already set and the
default filename (extracted from the `diff --git` header) where they were
`None`; in particular both endpoints are populated whenever a default
filename was extractable, and the change is marked binary. -/
theorem parse_binary_sets_default_names (fuel : Nat)
    (inflate : List Nat → Option (List Nat)) (change : Change)
    (src : Linebuffer) (d : Option String) (c' : Change) (src' : Linebuffer)
    (h : parse_binary fuel inflate change src d = .ok (c', src')) :
    c'.source = fillDefault change.source d ∧
    c'.dest = fillDefault change.dest d ∧
    (∀ s, change.source = some s → c'.source = some s) ∧
    (∀ s, change.dest = some s → c'.dest = some s) ∧
    (d.isSome → c'.source.isSome ∧ c'.dest.isSome) ∧
    c'.binary = true := by
  rw [parse_binary] at h
  split at h
  · exact absurd h (by simp)
  · exact absurd h (by simp)
  · split at h
    · exact absurd h (by simp)
    all_goals (
      simp only [Except.ok.injEq, Prod.mk.injEq] at h
      obtain ⟨hc, -⟩ := h
      subst hc
      refine ⟨rfl, rfl, ?_, ?_, ?_, rfl⟩
      · intro s hs
        simp [setBinaryTrue, appendBinaryHunk, fillChange, fillDefault, hs]
      · intro s hs
        simp [setBinaryTrue, appendBinaryHunk, fillChange, fillDefault, hs]
      · intro hd
        cases hs : change.source <;> cases hd2 : change.dest <;>
          simp_all [setBinaryTrue, appendBinaryHunk, fillChange, fillDefault])

/-- Input for the C10 witness: a one-chunk literal binary hunk.  The data
line `D00000` declares 4 bytes and decodes to exactly 4. -/
def srcBin : Linebuffer := Linebuffer.mk [] ["literal 4\n", "D00000\n", "\n"]

/-- The identity standing in for `zlib.decompress` in the witness run (a
decompressor that succeeds on the witness payload). -/
def inflId : List Nat → Option (List Nat) := fun bs => some bs

/-- Claim C10 witness: a concrete `_parse_binary` run on a change with no
endpoints and default filename `"f"`: both endpoints come back as `"f"` and
the change is marked binary. -/
theorem parse_binary_sets_default_names_witness :
    ∃ c' src',
      parse_binary 10 inflId { kind := .modify } srcBin (some "f") =
        .ok (c', src') ∧
      c'.source = some "f" ∧ c'.dest = some "f" ∧ c'.binary = true := by
  have hrun : parse_binary 10 inflId { kind := .modify } srcBin (some "f") =
      .ok ({ kind := .modify, source := some "f", dest := some "f",
             hunks := [Hunk.binary ⟨4, "literal", [0, 0, 0, 0], false⟩],
             binary := true }, Linebuffer.mk [""] []) := rfl
  obtain ⟨h1, h2, -, -, -, h6⟩ :=
    parse_binary_sets_default_names 10 inflId { kind := .modify } srcBin
      (some "f") _ _ hrun
  exact ⟨_, _, hrun, h1, h2, h6⟩

/-! ## C-style escape decoding (`unescape_c`, diffparser.py lines 9-46)

`_UNI_RE.split` is modelled by `uniSplit` (pieces in order, the captured
`\uXXXX`/`\UXXXXXXXX` separators included as their own pieces);
`_ESCAPE_RE.sub(process_escape, ...)` by `escapeSub`, a left-to-right scan
replacing each regex match.  Inside `process_escape` the octal and `\x`
branches evaluate `e[1:]` / `e[2:]` — but the bound local is `esc`, not
`e`, so both branches raise `NameError('e')`.

The trailing `r.decode(encoding)` turns a Python 2 byte string into
unicode; it is modelled as the identity, which is faithful for the inputs
that can reach it: every escape that would produce a non-input byte
(`\x..`, octal) raises first, so the chunk consists of characters of the
input plus mapped ASCII control characters. -/

def isHexDigitCh (c : Char) : Bool :=
  c.isDigit ∨ ('a' ≤ c ∧ c ≤ 'f') ∨ ('A' ≤ c ∧ c ≤ 'F')

def isOctalDigit (c : Char) : Bool := '0' ≤ c ∧ c ≤ '7'

def hexDigitVal (c : Char) : Nat :=
  if c.isDigit then c.toNat - '0'.toNat
  else if 'a' ≤ c ∧ c ≤ 'f' then c.toNat - 'a'.toNat + 10
  else c.toNat - 'A'.toNat + 10

/-- `int(ds, 16)` for a run of hex digits. -/
def hexVal (ds : List Char) : Nat := ds.foldl (fun a c => a * 16 + hexDigitVal c) 0

/-- A `_UNI_RE` match at the head of the character list: `\u` + exactly 4
hex digits, or `\U` + exactly 8. -/
def checkUni : List Char → Option (List Char × List Char)
  | '\\' :: 'u' :: h1 :: h2 :: h3 :: h4 :: rest =>
    if isHexDigitCh h1 ∧ isHexDigitCh h2 ∧ isHexDigitCh h3 ∧ isHexDigitCh h4 then
      some (['\\', 'u', h1, h2, h3, h4], rest)
    else none
  | '\\' :: 'U' :: h1 :: h2 :: h3 :: h4 :: h5 :: h6 :: h7 :: h8 :: rest =>
    if isHexDigitCh h1 ∧ isHexDigitCh h2 ∧ isHexDigitCh h3 ∧ isHexDigitCh h4 ∧
       isHexDigitCh h5 ∧ isHexDigitCh h6 ∧ isHexDigitCh h7 ∧ isHexDigitCh h8 then
      some (['\\', 'U', h1, h2, h3, h4, h5, h6, h7, h8], rest)
    else none
  | _ => none

/-- `_UNI_RE.split(s)`: scan left to right for `\uXXXX`/`\UXXXXXXXX`
matches; the pieces between (and around) matches alternate with the
captured separators. -/
def uniSplitAux : Nat → List Char → List Char → List (List Char)
  | 0, rest, cur => [cur.reverse ++ rest]
  | _ + 1, [], cur => [cur.reverse]
  | fuel + 1, c :: rest, cur =>
    match checkUni (c :: rest) with
    | some (sep, rem) => cur.reverse :: sep :: uniSplitAux fuel rem []
    | none => uniSplitAux fuel rest (c :: cur)

def uniSplit (s : String) : List (List Char) := uniSplitAux s.data.length s.data []

/-- An `_ESCAPE_RE` match at the head of the character list, in the
regex's alternation order: `[abtnvfr]`, then `u` + 1-4 hex (greedy), `U` +
1-8 hex, `x` + 1-2 hex, 1-3 octal digits, and finally any single
non-newline character.  Returns the matched characters and the rest;
`none` when there is no match at this backslash (lone trailing backslash,
or backslash before a newline). -/
def matchEscape : List Char → Option (List Char × List Char)
  | '\\' :: c :: rest =>
    if c ∈ (['a', 'b', 't', 'n', 'v', 'f', 'r'] : List Char) then
      some (['\\', c], rest)
    else if c = 'u' then
      let hs := (rest.takeWhile isHexDigitCh).take 4
      if hs.isEmpty then some (['\\', 'u'], rest)
      else some ('\\' :: 'u' :: hs, rest.drop hs.length)
    else if c = 'U' then
      let hs := (rest.takeWhile isHexDigitCh).take 8
      if hs.isEmpty then some (['\\', 'U'], rest)
      else some ('\\' :: 'U' :: hs, rest.drop hs.length)
    else if c = 'x' then
      let hs := (rest.takeWhile isHexDigitCh).take 2
      if hs.isEmpty then some (['\\', 'x'], rest)
      else some ('\\' :: 'x' :: hs, rest.drop hs.length)
    else if isOctalDigit c then
      let os := (rest.takeWhile isOctalDigit).take 2
      some ('\\' :: c :: os, rest.drop os.length)
    else if c = '\n' then none
    else some (['\\', c], rest)
  | _ => none

/-- The `_ESCAPES` dictionary (diffparser.py lines 9-11), keyed by the
character after the backslash. -/
def escapeMap (c : Char) : Option String :=
  if c = 'a' then some "\x07" else if c = 'b' then some "\x08"
  else if c = 't' then some "\t" else if c = 'n' then some "\n"
  else if c = 'v' then some "\x0b" else if c = 'f' then some "\x0c"
  else if c = 'r' then some "\x0d" else if c = '"' then some "\""
  else if c = '\'' then some "'" else if c = '\\' then some "\\"
  else none

/-- `_ESCAPES.get(esc, None)`: the keys are exactly the two-character
escapes. -/
def escLookup (esc : List Char) : Option String :=
  match esc with
  | [_, c] => escapeMap c
  | _ => none

/-- `process_escape(match)` (lines 24-34): dictionary escapes map to their
character; `\x..` and octal escapes evaluate the unbound name `e`
(`chr(int(e[2:], 16))` / `chr(int(e[1:], 8))` — the local is `esc`), so
both raise `NameError('e')`; anything else drops the backslash. -/
def process_escape (esc : List Char) : PRes String :=
  match escLookup esc with
  | some r => .ok r
  | none =>
    match esc with
    | _ :: c :: _ =>
      if c = 'x' then .error (.exn (.nameError "e"))
      else if isOctalDigit c then .error (.exn (.nameError "e"))
      else .ok ⟨esc.drop 1⟩
    | _ => .ok ⟨esc.drop 1⟩  -- unreachable: every match is ≥ 2 characters

/-- `_ESCAPE_RE.sub(process_escape, piece)`: left-to-right scan; an
exception from `process_escape` propagates out of `sub`. -/
def escapeSubAux : Nat → List Char → List Char → PRes String
  | 0, rest, out => .ok ⟨out.reverse ++ rest⟩
  | _ + 1, [], out => .ok ⟨out.reverse⟩
  | fuel + 1, c :: rest, out =>
    if c = '\\' then
      match matchEscape (c :: rest) with
      | some (esc, rem) =>
        match process_escape esc with
        | .error e => .error e
        | .ok rep => escapeSubAux fuel rem (rep.data.reverse ++ out)
      | none => escapeSubAux fuel rest (c :: out)
    else escapeSubAux fuel rest (c :: out)

def escapeSub (cs : List Char) : PRes String := escapeSubAux cs.length cs []

/-- One piece of the `_UNI_RE.split` result (lines 37-44): a piece starting
with `\u`/`\U` goes through `unichr(int(c[2:], 16))` — a non-hex or empty
remainder raises `ValueError`, and so does a code point Python's `unichr`
rejects (surrogates cannot be represented as a Lean `Char` and are modelled
as the error case as well); any other piece goes through the escape
substitution (and the `decode(encoding)` modelled as the identity). -/
def unescapePiece (piece : List Char) : PRes String :=
  match piece with
  | '\\' :: u :: rest =>
    if u = 'u' ∨ u = 'U' then
      if ¬rest.isEmpty ∧ rest.all isHexDigitCh then
        let v := hexVal rest
        if v < 0x110000 ∧ ¬(0xD800 ≤ v ∧ v ≤ 0xDFFF) then .ok ⟨[Char.ofNat v]⟩
        else .error (.exn .valueError)
      else .error (.exn .valueError)
    else escapeSub piece
  | _ => escapeSub piece

/-- Concatenate the processed pieces (`u''.join(strings)`), propagating the
first exception. -/
def unescapePieces : List (List Char) → PRes String
  | [] => .ok ""
  | p :: ps =>
    match unescapePiece p with
    | .error e => .error e
    | .ok s1 =>
      match unescapePieces ps with
      | .error e => .error e
      | .ok s2 => .ok (s1 ++ s2)

/-- `unescape_c(s, encoding)`.  The `encoding` argument only feeds the
`decode` step, which (see the section comment) is modelled as the identity
because every escape that would produce a raw byte raises `NameError`
first. -/
def unescape_c (s : String) (_encoding : String) : PRes String :=
  unescapePieces (uniSplit s)

/-- Claim C9: the claim says octal (`\101`) and hex (`\x41`) escapes decode
to the escaped byte interpreted in the caller's encoding.  In fact
`process_escape` reads `chr(int(e[1:], 8))` / `chr(int(e[2:], 16))` where
no variable `e` exists (the local is `esc`), so EVERY octal or hex escape
raises `NameError('e')` instead of producing a character — in any encoding.
The `\uXXXX` path and the simple two-character escapes do work, as the last
two conjuncts show. -/
theorem unescape_c_octal_hex_crash :
    unescape_c "\\101" "latin-1" = .error (.exn (.nameError "e")) ∧
    unescape_c "\\x41" "latin-1" = .error (.exn (.nameError "e")) ∧
    unescape_c "\\u0041" "latin-1" = .ok "A" ∧
    unescape_c "\\t" "latin-1" = .ok "\t" :=
  ⟨rfl, rfl, rfl, rfl⟩
